import Mathlib

/-!
Verification development for the DynaModERA repository (dmd_era5).

The array-manipulation utilities of the repository are shallowly embedded:
numpy 2D arrays become a shape list plus an entry function over flat
multi-indices (rationals stand in for the numeric payload), xarray datasets
become records of coordinate lists and per-variable entry functions, and
fallible code returns `Except String`.  Machine floating point is modelled
by exact arithmetic over the rationals or the reals.
-/

/-- A numpy ndarray: a shape together with a total entry function on
multi-indices.  Only in-range indices are meaningful; out-of-range entries
are junk values. -/
structure PyArray where
  shape : List ℕ
  entry : List ℕ → ℚ

namespace slice_tools

/-- Embedding of `apply_delay_embedding` from
`src/dmd_era5/slice_tools/slice_tools.py`.

Source logic:
* `if X.ndim != 2: raise ValueError("Input array must be 2D.")`
* `if not isinstance(d, int) or d <= 0: raise ValueError(...)`
  (the delay is typed `ℤ` in the embedding, so the `isinstance` part is
  carried by the type and only `d <= 0` remains);
* `sliding_window_view(X.T, (d, X.shape[0]))[:, 0].reshape(X.shape[1] - d + 1, -1).T`.

numpy semantics of the final expression, for `X` of shape `(n, T)`:
`sliding_window_view` itself raises a `ValueError`
("window shape cannot be larger than input array shape") when the window
length `d` exceeds the time axis length `T`.  Otherwise, writing
`A = X.T` (so `A[j, i] = X[i, j]`), the `[:, 0]` slice of the window view
has entry `(j, k, i) = A[j + k, i]`, the reshape flattens the trailing
`(d, n)` block row-major so that flat row index `r = k * n + i` decomposes
as `k = r / n`, `i = r % n`, and the final transpose yields
`out[r, j] = A[j + r / n, r % n] = X[r % n, j + r / n]`,
an array of shape `(n * d, T - d + 1)`. -/
def apply_delay_embedding (X : PyArray) (d : ℤ) : Except String PyArray :=
  match X.shape with
  | [n, T] =>
      if d ≤ 0 then
        Except.error "Delay must be an integer greater than 0."
      else if T < d.toNat then
        Except.error "window shape cannot be larger than input array shape"
      else
        Except.ok
          ⟨[n * d.toNat, T - d.toNat + 1],
           fun idx =>
             match idx with
             | [r, j] => X.entry [r % n, j + r / n]
             | _ => 0⟩
  | _ => Except.error "Input array must be 2D."

end slice_tools

/-- Specification predicate for claim C3: the delay embedding of an
`(n, T)` array with delay `d` succeeds, has shape `(n * d, T - d + 1)`,
and its column `j` is the concatenation of the `d` consecutive input
columns `j, ..., j + d - 1` (block `k` of rows holds input column `j + k`). -/
def DelayEmbedOk (X : PyArray) (n T d : ℕ) : Prop :=
  ∃ Y : PyArray,
    slice_tools.apply_delay_embedding X (d : ℤ) = Except.ok Y ∧
    Y.shape = [n * d, T - d + 1] ∧
    ∀ k i j, k < d → i < n → j < T - d + 1 →
      Y.entry [k * n + i, j] = X.entry [i, j + k]

/-- Specification predicate for claim C4 (amended): delay 1 returns the
input array unchanged, as a shape-`(n, T)` array with identical in-range
entries. -/
def DelayOneIdentity (X : PyArray) (n T : ℕ) : Prop :=
  ∃ Y : PyArray,
    slice_tools.apply_delay_embedding X (1 : ℤ) = Except.ok Y ∧
    Y.shape = [n, T] ∧
    ∀ i j, i < n → j < T → Y.entry [i, j] = X.entry [i, j]

/-- A 2D array with an empty time axis, shape `(1, 0)`. -/
def X_empty_time : PyArray := ⟨[1, 0], fun _ => 0⟩

/-- A 2D array of shape `(1, 1)`. -/
def X_one_one : PyArray := ⟨[1, 1], fun _ => 0⟩

/-- A concrete `(2, 3)` array used as witness input for claim C3. -/
def X_c3 : PyArray :=
  ⟨[2, 3], fun idx => match idx with
    | [i, j] => ((10 * i + j : ℕ) : ℚ)
    | _ => 0⟩

/-- A concrete `(2, 3)` array used as witness input for claim C4. -/
def X_c4 : PyArray :=
  ⟨[2, 3], fun idx => match idx with
    | [i, j] => ((i + 7 * j : ℕ) : ℚ)
    | _ => 0⟩

/-- Lexicographic comparison of character lists by code point, the order
Python string comparison uses. -/
def charListLt : List Char → List Char → Bool
  | [], [] => false
  | [], _ :: _ => true
  | _ :: _, [] => false
  | a :: as, b :: bs =>
      if a.toNat < b.toNat then true
      else if b.toNat < a.toNat then false
      else charListLt as bs

/-- Non-strict string order derived from `charListLt` (Python semantics). -/
def pyStrLe (a b : String) : Bool := ! charListLt b.data a.data

/-- Insertion step of the model of Python `sorted` on string lists. -/
def sortStrInsert (a : String) : List String → List String
  | [] => [a]
  | b :: l => if pyStrLe a b then a :: b :: l else b :: sortStrInsert a l

/-- Model of Python `sorted` on string lists: insertion sort by the
lexicographic order.  Only the multiset-respecting, order-normalizing
behaviour matters here, exactly what the source uses `sorted` for. -/
def sortStr : List String → List String
  | [] => []
  | a :: l => sortStrInsert a (sortStr l)

/-- Source constant `must_have_coords` from `flatten_era5_variables`. -/
def mustHaveCoords : List String := ["latitude", "longitude", "time", "level"]

/-- An ERA5 dataset as `flatten_era5_variables` sees it: the coordinate-name
set, the four coordinate value arrays, and the data variables, each a name
plus an entry function over (level, latitude, longitude, time) indices. -/
structure Era5DS where
  coords : List String
  level : List ℚ
  latitude : List ℚ
  longitude : List ℚ
  time : List ℚ
  data_vars : List (String × (ℕ → ℕ → ℕ → ℕ → ℚ))

/-- The `flattened_coords` dictionary returned by `flatten_era5_variables`:
per-space-index coordinate values plus the unchanged time array. -/
structure FlatCoords where
  level : List ℚ
  latitude : List ℚ
  longitude : List ℚ
  time : List ℚ

/-- Junk default used for out-of-range variable lookups in the embedding. -/
def defaultVar : String × (ℕ → ℕ → ℕ → ℕ → ℚ) := ("", fun _ _ _ _ => 0)

namespace slice_tools

/-- Embedding of `flatten_era5_variables` from
`src/dmd_era5/slice_tools/slice_tools.py`.

Source logic:
* `variables = list(era5_ds.data_vars.keys())`;
* `if sorted(coords) != sorted(must_have_coords): raise ValueError(...)`;
* `stacked = era5_ds.stack(space=["level", "latitude", "longitude"])`:
  xarray stacks the spatial axes row-major in the listed order, so space
  index `s` decomposes as `s = l * (n_lat * n_lon) + a * n_lon + o`;
* each variable is transposed to `(space, time)` and the variable blocks
  are concatenated along axis 0, so flat row `r` decomposes as
  `v = r / n_space`, `s = r % n_space`;
* the flattened coordinates are the stacked per-space coordinate values
  (`level[s] = level[s / (n_lat * n_lon)]`,
  `latitude[s] = latitude[(s / n_lon) % n_lat]`,
  `longitude[s] = longitude[s % n_lon]`) and the unchanged time values. -/
def flatten_era5_variables (era5_ds : Era5DS) :
    Except String (PyArray × FlatCoords × List String) :=
  let varNames := era5_ds.data_vars.map Prod.fst
  if sortStr era5_ds.coords ≠ sortStr mustHaveCoords then
    Except.error "Missing required coordinates: latitude, longitude, time, level."
  else
    let nLat := era5_ds.latitude.length
    let nLon := era5_ds.longitude.length
    let nSpace := era5_ds.level.length * nLat * nLon
    let data : PyArray :=
      ⟨[era5_ds.data_vars.length * nSpace, era5_ds.time.length],
       fun idx => match idx with
         | [r, t] =>
             (era5_ds.data_vars.getD (r / nSpace) defaultVar).2
               ((r % nSpace) / (nLat * nLon)) (((r % nSpace) / nLon) % nLat)
               ((r % nSpace) % nLon) t
         | _ => 0⟩
    let flattened_coords : FlatCoords :=
      ⟨(List.range nSpace).map (fun s => era5_ds.level.getD (s / (nLat * nLon)) 0),
       (List.range nSpace).map (fun s => era5_ds.latitude.getD ((s / nLon) % nLat) 0),
       (List.range nSpace).map (fun s => era5_ds.longitude.getD (s % nLon) 0),
       era5_ds.time⟩
    Except.ok (data, flattened_coords, varNames)

end slice_tools

/-- Specification predicate for claim C2: flattening succeeds, returns the
variable names in order, a matrix of shape
`(n_vars * n_space, n_time)`, the unchanged time coordinate, and for all
in-range indices the matrix entry at row `v * n_space + s` (with
`s = l * (n_lat * n_lon) + a * n_lon + o`) is the value of variable `v` at
`(l, a, o, t)`, while the returned coordinate lookup maps `s` back to the
original coordinate values. -/
def FlattenRoundTrip (ds : Era5DS) : Prop :=
  ∃ (M : PyArray) (fc : FlatCoords) (vars : List String),
    slice_tools.flatten_era5_variables ds = Except.ok (M, fc, vars) ∧
    vars = ds.data_vars.map Prod.fst ∧
    M.shape = [ds.data_vars.length *
        (ds.level.length * ds.latitude.length * ds.longitude.length),
      ds.time.length] ∧
    fc.time = ds.time ∧
    ∀ v l a o t, v < ds.data_vars.length → l < ds.level.length →
      a < ds.latitude.length → o < ds.longitude.length →
      (M.entry [v * (ds.level.length * ds.latitude.length * ds.longitude.length) +
            (l * (ds.latitude.length * ds.longitude.length) +
              a * ds.longitude.length + o), t]
          = (ds.data_vars.getD v defaultVar).2 l a o t) ∧
      fc.level[l * (ds.latitude.length * ds.longitude.length) +
          a * ds.longitude.length + o]? = ds.level[l]? ∧
      fc.latitude[l * (ds.latitude.length * ds.longitude.length) +
          a * ds.longitude.length + o]? = ds.latitude[a]? ∧
      fc.longitude[l * (ds.latitude.length * ds.longitude.length) +
          a * ds.longitude.length + o]? = ds.longitude[o]?

/-- Concrete witness dataset for claim C2: 2 levels, 1 latitude,
2 longitudes, 2 times, one variable. -/
def ds_c2 : Era5DS :=
  ⟨["time", "level", "latitude", "longitude"],
   [10, 20], [1], [5, 6], [0, 1],
   [("temperature", fun l a o t => ((100 * l + 10 * a + 5 * o + t : ℕ) : ℚ))]⟩

noncomputable section

/-- Mean of a list of reals (`DataArray.mean` along the chosen dimension,
for one slice).  The empty list yields the junk value `0 / 0 = 0`. -/
def listMean (xs : List ℝ) : ℝ := xs.sum / xs.length

/-- Population variance of a list of reals (xarray default `ddof = 0`). -/
def listVariance (xs : List ℝ) : ℝ :=
  listMean (xs.map (fun x => (x - listMean xs) ^ 2))

/-- Standard deviation, `DataArray.std` along the chosen dimension. -/
def listStd (xs : List ℝ) : ℝ := Real.sqrt (listVariance xs)

/-- Broadcast subtraction of the mean along the chosen dimension
(`data - data.mean(dim=dim)` on one slice). -/
def centerRow (xs : List ℝ) : List ℝ := xs.map (fun x => x - listMean xs)

/-- Broadcast division by the standard deviation along the chosen dimension
(`data / data.std(dim=dim)` on one slice). -/
def scaleRow (xs : List ℝ) : List ℝ := xs.map (fun x => x / listStd xs)

namespace slice_tools

/-- Embedding of `standardize_data` from
`src/dmd_era5/slice_tools/slice_tools.py`.

A DataArray is modelled as a list of slices along the non-standardized
dimensions; each inner list runs along the caller-specified dimension
`dim`, so `mean(dim)` / `std(dim)` act independently per row and the
subtraction/division broadcast over the row.  Source logic:
`data = data - data.mean(dim=dim)` unconditionally, then
`if scale: data = data / data.std(dim=dim)` (the standard deviation of the
already-centered data). -/
def standardize_data (data : List (List ℝ)) (scale : Bool) : List (List ℝ) :=
  let centered := data.map centerRow
  if scale then centered.map scaleRow else centered

end slice_tools

namespace era5_processing

/-- Embedding of `standardize_data` from
`src/dmd_era5/era5_processing/era5_processing.py`.  In this version the
mean-centering is guarded by a `mean_center` flag:
`if mean_center: data -= data.mean(dim=dim)`, then
`if scale: data /= data.std(dim=dim)`. -/
def standardize_data (data : List (List ℝ)) (mean_center scale : Bool) :
    List (List ℝ) :=
  let d1 := if mean_center then data.map centerRow else data
  if scale then d1.map scaleRow else d1

end era5_processing

/-- Call model for the slice_tools `standardize_data`: the returned pair is
(return value, state of the caller's array after the call).  The source
uses plain binary operators (`data = data - ...`, `data = data / ...`),
which allocate new arrays and rebind the local name only, so the caller's
array is untouched. -/
def slice_tools_standardize_call (data : List (List ℝ)) (scale : Bool) :
    List (List ℝ) × List (List ℝ) :=
  (slice_tools.standardize_data data scale, data)

/-- Call model for the era5_processing `standardize_data`: the source uses
augmented assignments (`data -= ...`, `data /= ...`), which xarray applies
in place to the caller's underlying buffer, so after the call the caller's
array (and every alias of it) holds the returned values. -/
def era5_standardize_call (data : List (List ℝ)) (mean_center scale : Bool) :
    List (List ℝ) × List (List ℝ) :=
  (era5_processing.standardize_data data mean_center scale,
   era5_processing.standardize_data data mean_center scale)

/-- Specification predicate for claim C9: with scaling enabled, every row
of the standardized output has mean exactly 0 and standard deviation
exactly 1 (floating tolerance collapses to exactness in the real-number
model). -/
def StandardizedRows (data : List (List ℝ)) : Prop :=
  ∀ row ∈ slice_tools.standardize_data data true,
    listMean row = 0 ∧ listStd row = 1

/-- Concrete witness data for claim C9: one row with variance 1. -/
def data_c9 : List (List ℝ) := [[1, -1]]

end

/-- An ERA5 dataset reduced to what `slice_era5_dataset` inspects: the time
coordinate (datetimes modelled as integers, never falsy in Python) and the
pressure-level coordinate. -/
structure Era5Slim where
  time : List ℤ
  level : List ℤ
deriving DecidableEq

namespace slice_tools

/-- Embedding of `_get_dataset_time_bounds`: the first and last entries of
the time coordinate.  The source indexes `time.values[0]` and
`time.values[-1]`, which raises `IndexError` on an empty time axis; the
junk defaults here are only exercised under nonempty-time hypotheses. -/
def get_dataset_time_bounds (ds : Era5Slim) : ℤ × ℤ :=
  (ds.time.headD 0, ds.time.getLastD 0)

/-- Embedding of `slice_era5_dataset` from
`src/dmd_era5/slice_tools/slice_tools.py` (the era5_processing copy has the
same control flow).

Source logic:
* missing start/end datetimes default to the dataset bounds (datetimes are
  always truthy, so Python `or` is exactly `Option.getD`);
* `if start_dt < bounds.first or end_dt > bounds.last: raise ValueError`;
* `if start_dt >= end_dt: raise ValueError`;
* `levels = levels or list(ds.level.values)` (both `None` and the empty
  list are falsy and select all levels);
* `ds.sel(time=slice(start_dt, end_dt), level=levels)`: the label-based
  time slice keeps samples with `start_dt <= t <= end_dt` (inclusive), and
  the level selection returns the requested levels, raising `KeyError`
  (re-raised as `ValueError`) when one is absent. -/
def slice_era5_dataset (ds : Era5Slim) (start_datetime end_datetime : Option ℤ)
    (levels : Option (List ℤ)) : Except String Era5Slim :=
  let time_bounds := get_dataset_time_bounds ds
  let start_dt := start_datetime.getD time_bounds.1
  let end_dt := end_datetime.getD time_bounds.2
  if start_dt < time_bounds.1 ∨ time_bounds.2 < end_dt then
    Except.error "Time range is outside dataset bounds."
  else if end_dt ≤ start_dt then
    Except.error "Start datetime must be before end datetime."
  else
    let lvls := match levels with
      | none => ds.level
      | some l => if l = [] then ds.level else l
    if lvls.all (fun x => decide (x ∈ ds.level)) then
      Except.ok ⟨ds.time.filter (fun t => decide (start_dt ≤ t ∧ t ≤ end_dt)), lvls⟩
    else
      Except.error "Requested level is not available in the dataset."

end slice_tools

/-- Specification predicate for claim C6 (amended): slicing with all three
selectors unspecified succeeds and returns the dataset with its full time
and level extent. -/
def SliceFullBounds (ds : Era5Slim) : Prop :=
  slice_tools.slice_era5_dataset ds none none none = Except.ok ⟨ds.time, ds.level⟩

/-- A dataset with a single time sample (counterexample input for C6). -/
def ds_single : Era5Slim := ⟨[5], [100]⟩

/-- A concrete well-formed dataset (witness input for C6). -/
def ds_c6 : Era5Slim := ⟨[0, 5, 10], [100, 200]⟩

/-- A concrete dataset for the C8 witness. -/
def ds_c8 : Era5Slim := ⟨[0, 10], [100]⟩

/-- The run parameters recorded by `run_dmd_analysis` in
`run_dmd_quick.py`. -/
structure RunParams where
  train_frac : ℚ
  svd_rank : ℕ
  delay : ℕ
  n_modes : ℕ
  n_lat : ℕ
  n_lon : ℕ
  temporal_points : ℕ
  train_points : ℕ

/-- Values stored in the metadata dictionary: floats, integers, and the
spatial shape pair. -/
inductive MetaVal where
  | num : ℚ → MetaVal
  | count : ℕ → MetaVal
  | shape2 : ℕ → ℕ → MetaVal
deriving DecidableEq

namespace run_dmd_quick

/-- The metadata dictionary as built at lines 282-290 of
`run_dmd_quick.py`, in insertion order. -/
def metadata_dict (p : RunParams) : List (String × MetaVal) :=
  [("train_frac", MetaVal.num p.train_frac),
   ("svd_rank", MetaVal.count p.svd_rank),
   ("delay", MetaVal.count p.delay),
   ("n_modes", MetaVal.count p.n_modes),
   ("spatial_shape", MetaVal.shape2 p.n_lat p.n_lon),
   ("temporal_points", MetaVal.count p.temporal_points),
   ("train_points", MetaVal.count p.train_points)]

/-- The metadata record persisted to disk: `np.save` on the metadata dict
executes at line 291 of `run_dmd_quick.py`, before the test-set metrics are
computed (line 296 onward) and before `metadata.update(...)` at line 304;
the updated dictionary is never saved again, so the persisted record is the
dict as of line 291. -/
def saved_metadata (p : RunParams) : List (String × MetaVal) :=
  metadata_dict p

/-- The in-memory metadata dictionary after `metadata.update({"test_mse":
..., "test_relative_error": ...})` at lines 304-306. -/
def updated_metadata (p : RunParams) (test_mse test_relative_error : ℚ) :
    List (String × MetaVal) :=
  metadata_dict p ++
    [("test_mse", MetaVal.num test_mse),
     ("test_relative_error", MetaVal.num test_relative_error)]

end run_dmd_quick

/-- Decomposition of a flat row-major index: quotient part. -/
theorem flat_index_div (q r n : ℕ) (h : r < n) : (q * n + r) / n = q := by
  have hn : 0 < n := lt_of_le_of_lt (Nat.zero_le r) h
  rw [Nat.add_comm, Nat.add_mul_div_right r q hn, Nat.div_eq_of_lt h, Nat.zero_add]

/-- Decomposition of a flat row-major index: remainder part. -/
theorem flat_index_mod (q r n : ℕ) (h : r < n) : (q * n + r) % n = r := by
  rw [Nat.add_comm, Nat.add_mul_mod_self_right, Nat.mod_eq_of_lt h]

/-- Helper: on a 2D array with positive delay not exceeding the time axis,
`apply_delay_embedding` reduces to the sliding-window result. -/
theorem apply_delay_embedding_ok (sh : List ℕ) (f : List ℕ → ℚ) (n T : ℕ) (d : ℤ)
    (hsh : sh = [n, T]) (hd : 0 < d) (hT : d.toNat ≤ T) :
    slice_tools.apply_delay_embedding ⟨sh, f⟩ d =
      Except.ok
        ⟨[n * d.toNat, T - d.toNat + 1],
         fun idx =>
           match idx with
           | [r, j] => f [r % n, j + r / n]
           | _ => 0⟩ := by
  subst hsh
  unfold slice_tools.apply_delay_embedding
  dsimp only
  rw [if_neg (by omega), if_neg (by omega)]

/-- C3: for every two-dimensional input array of shape `(n, T)` and every
positive integer delay `d ≤ T`, `apply_delay_embedding` returns an array of
shape `(n * d, T - d + 1)` whose column `j` is the concatenation of input
columns `j` through `j + d - 1`. -/
theorem apply_delay_embedding_spec (X : PyArray) (n T d : ℕ)
    (hsh : X.shape = [n, T]) (hd : 0 < d) (hT : d ≤ T) :
    DelayEmbedOk X n T d := by
  obtain ⟨sh, f⟩ := X
  have h := apply_delay_embedding_ok sh f n T (d : ℤ) hsh (by exact_mod_cast hd)
    (by simpa using hT)
  refine ⟨_, by simpa using h, by simp, ?_⟩
  intro k i j hk hi hj
  simp only
  rw [flat_index_div k i n hi, flat_index_mod k i n hi]

/-- C3 witness: the specification holds at the concrete `(2, 3)` array
`X_c3` with delay 2. -/
theorem apply_delay_embedding_spec_witness :
    X_c3.shape = [2, 3] ∧ 0 < 2 ∧ 2 ≤ 3 ∧ DelayEmbedOk X_c3 2 3 2 :=
  ⟨rfl, by decide, by decide,
    apply_delay_embedding_spec X_c3 2 3 2 rfl (by decide) (by decide)⟩

/-- C4 counterexample: on the two-dimensional array `X_empty_time` of shape
`(1, 0)`, `apply_delay_embedding` with delay 1 does not return the input
array: the underlying `sliding_window_view` call raises, because the window
length 1 exceeds the (empty) time axis.  So "delay 1 is the identity for
every 2D input" is false as stated. -/
theorem apply_delay_embedding_delay_one_empty_counterexample :
    ¬ ∃ Y : PyArray, slice_tools.apply_delay_embedding X_empty_time (1 : ℤ) =
      Except.ok Y := by
  intro h
  obtain ⟨Y, hY⟩ := h
  simp [slice_tools.apply_delay_embedding, X_empty_time] at hY

/-- C4 (amended): for every two-dimensional input array with at least one
time column, `apply_delay_embedding` with delay 1 returns the input
unchanged (same shape, same in-range entries). -/
theorem apply_delay_embedding_delay_one_id (X : PyArray) (n T : ℕ)
    (hsh : X.shape = [n, T]) (hT : 1 ≤ T) :
    DelayOneIdentity X n T := by
  obtain ⟨sh, f⟩ := X
  have h := apply_delay_embedding_ok sh f n T 1 hsh (by omega) (by simpa using hT)
  refine ⟨_, h, by simp [Nat.sub_add_cancel hT], ?_⟩
  intro i j hi hj
  simp only
  rw [Nat.mod_eq_of_lt hi, Nat.div_eq_of_lt hi, Nat.add_zero]

/-- C4 witness: delay 1 acts as the identity on the concrete `(2, 3)` array
`X_c4`. -/
theorem apply_delay_embedding_delay_one_id_witness :
    X_c4.shape = [2, 3] ∧ 1 ≤ 3 ∧ DelayOneIdentity X_c4 2 3 :=
  ⟨rfl, by decide, apply_delay_embedding_delay_one_id X_c4 2 3 rfl (by decide)⟩

/-- C7 counterexample: on the two-dimensional array `X_one_one` of shape
`(1, 1)` with the positive integer delay 2, `apply_delay_embedding` does
not return normally: the underlying `sliding_window_view` call raises a
value error, because the window length 2 exceeds the time axis length 1.
So "returns normally for every 2D input and positive integer delay" is
false as stated. -/
theorem apply_delay_embedding_large_delay_counterexample :
    ¬ ∃ Y : PyArray, slice_tools.apply_delay_embedding X_one_one (2 : ℤ) =
      Except.ok Y := by
  intro h
  obtain ⟨Y, hY⟩ := h
  simp [slice_tools.apply_delay_embedding, X_one_one] at hY

/-- C7 (amended): `apply_delay_embedding` returns normally exactly when the
input is two-dimensional, the delay is a positive integer, and the delay
does not exceed the time axis length; in every other case a value-error is
raised (by the explicit validation, or by the window construction when the
delay exceeds the time axis). -/
theorem apply_delay_embedding_ok_iff (X : PyArray) (d : ℤ) :
    (∃ Y : PyArray, slice_tools.apply_delay_embedding X d = Except.ok Y) ↔
    (∃ n T : ℕ, X.shape = [n, T] ∧ 0 < d ∧ d ≤ (T : ℤ)) := by
  obtain ⟨sh, f⟩ := X
  match sh with
  | [] => simp [slice_tools.apply_delay_embedding]
  | [a] => simp [slice_tools.apply_delay_embedding]
  | a :: b :: c :: l => simp [slice_tools.apply_delay_embedding]
  | [n, T] =>
    constructor
    · intro h
      obtain ⟨Y, hY⟩ := h
      unfold slice_tools.apply_delay_embedding at hY
      dsimp only at hY
      split_ifs at hY with h1 h2
      all_goals first
      | exact Except.noConfusion hY
      | exact ⟨n, T, rfl, by omega, by omega⟩
    · intro h
      obtain ⟨n₀, T₀, hsh, hd, hT⟩ := h
      obtain ⟨hn, hT2⟩ : n = n₀ ∧ T = T₀ := by simpa using hsh
      refine ⟨_, apply_delay_embedding_ok [n, T] f n T d rfl hd ?_⟩
      omega

/-- Strict upper bound for a mixed-radix spatial index. -/
theorem mixed_radix_bound (l a o L A O : ℕ) (hl : l < L) (ha : a < A) (ho : o < O) :
    l * (A * O) + a * O + o < L * A * O := by
  have h1 : a * O + o < A * O := by
    have h2 : (a + 1) * O ≤ A * O := Nat.mul_le_mul_right O ha
    calc a * O + o < a * O + O := by omega
    _ = (a + 1) * O := by ring
    _ ≤ A * O := h2
  calc l * (A * O) + a * O + o = l * (A * O) + (a * O + o) := by ring
  _ < l * (A * O) + A * O := by omega
  _ = (l + 1) * (A * O) := by ring
  _ ≤ L * (A * O) := Nat.mul_le_mul_right (A * O) hl
  _ = L * A * O := by ring

/-- Recovering the (level, latitude, longitude) indices from a stacked
spatial index. -/
theorem space_index_decompose (l a o A O : ℕ) (ha : a < A) (ho : o < O) :
    (l * (A * O) + a * O + o) / (A * O) = l ∧
    ((l * (A * O) + a * O + o) / O) % A = a ∧
    (l * (A * O) + a * O + o) % O = o := by
  have h1 : a * O + o < A * O := by
    have h2 : (a + 1) * O ≤ A * O := Nat.mul_le_mul_right O ha
    calc a * O + o < a * O + O := by omega
    _ = (a + 1) * O := by ring
    _ ≤ A * O := h2
  have hassoc : l * (A * O) + a * O + o = l * (A * O) + (a * O + o) := by ring
  have hflat : l * (A * O) + a * O + o = (l * A + a) * O + o := by ring
  refine ⟨?_, ?_, ?_⟩
  · rw [hassoc, flat_index_div l (a * O + o) (A * O) h1]
  · rw [hflat, flat_index_div (l * A + a) o O ho, flat_index_mod l a A ha]
  · rw [hflat, flat_index_mod (l * A + a) o O ho]

/-- Lookup in a tabulated list of function values. -/
theorem range_map_getElem (n s : ℕ) (f : ℕ → ℚ) (h : s < n) :
    ((List.range n).map f)[s]? = some (f s) := by
  simp [List.getElem?_map, List.getElem?_range h]

/-- C2: for every dataset whose coordinate set is exactly
(level, latitude, longitude, time), `flatten_era5_variables` returns a
matrix, a coordinate lookup and a variable list that reproduce every
variable value: entry `(v * n_space + s, t)` equals variable `v` at the
spatial index decomposed from `s` in the fixed (level, latitude, longitude)
stack order, and the coordinate lookup inverts `s` to the original
coordinate values. -/
theorem flatten_era5_variables_roundtrip (ds : Era5DS)
    (hc : sortStr ds.coords = sortStr mustHaveCoords) :
    FlattenRoundTrip ds := by
  unfold FlattenRoundTrip slice_tools.flatten_era5_variables
  rw [if_neg (by simp [hc])]
  refine ⟨_, _, _, rfl, rfl, rfl, rfl, ?_⟩
  intro v l a o t hv hl ha ho
  have hs : l * (ds.latitude.length * ds.longitude.length) +
      a * ds.longitude.length + o <
      ds.level.length * ds.latitude.length * ds.longitude.length :=
    mixed_radix_bound l a o ds.level.length ds.latitude.length
      ds.longitude.length hl ha ho
  obtain ⟨hd1, hd2, hd3⟩ :=
    space_index_decompose l a o ds.latitude.length ds.longitude.length ha ho
  refine ⟨?_, ?_, ?_, ?_⟩
  · dsimp only
    rw [flat_index_div v _ _ hs, flat_index_mod v _ _ hs, hd1, hd2, hd3]
  · dsimp only
    rw [range_map_getElem _ _ _ hs, hd1,
      List.getD_eq_getElem ds.level 0 hl, List.getElem?_eq_getElem hl]
  · dsimp only
    rw [range_map_getElem _ _ _ hs, hd2,
      List.getD_eq_getElem ds.latitude 0 ha, List.getElem?_eq_getElem ha]
  · dsimp only
    rw [range_map_getElem _ _ _ hs, hd3,
      List.getD_eq_getElem ds.longitude 0 ho, List.getElem?_eq_getElem ho]

/-- C2 witness: the round-trip specification holds on the concrete dataset
`ds_c2`. -/
theorem flatten_era5_variables_roundtrip_witness :
    sortStr ds_c2.coords = sortStr mustHaveCoords ∧ FlattenRoundTrip ds_c2 :=
  ⟨by decide, flatten_era5_variables_roundtrip ds_c2 (by decide)⟩

/-- Sum after subtracting a constant from every element. -/
theorem sum_map_sub_const (l : List ℝ) (c : ℝ) :
    (l.map (fun x => x - c)).sum = l.sum - l.length * c := by
  induction l with
  | nil => simp
  | cons x tl ih =>
      simp only [List.map_cons, List.sum_cons, List.length_cons, ih]
      push_cast
      ring

/-- Sum after dividing every element by a constant. -/
theorem sum_map_div (l : List ℝ) (s : ℝ) :
    (l.map (fun x => x / s)).sum = l.sum / s := by
  induction l with
  | nil => simp
  | cons x tl ih =>
      simp only [List.map_cons, List.sum_cons, ih]
      rw [add_div]

/-- Mean after dividing every element by a constant. -/
theorem listMean_map_div (l : List ℝ) (s : ℝ) :
    listMean (l.map (fun x => x / s)) = listMean l / s := by
  unfold listMean
  rw [sum_map_div, List.length_map, div_div, div_div, mul_comm]

/-- Mean-centering always produces a zero-mean row. -/
theorem listMean_centerRow (l : List ℝ) : listMean (centerRow l) = 0 := by
  rcases eq_or_ne l [] with h | h
  · subst h
    simp [centerRow, listMean]
  · have hlen : (l.length : ℝ) ≠ 0 := by
      have : l.length ≠ 0 := fun h0 => h (List.length_eq_zero.mp h0)
      exact_mod_cast this
    unfold centerRow listMean
    rw [sum_map_sub_const, List.length_map]
    field_simp

/-- The population variance is nonnegative. -/
theorem listVariance_nonneg (l : List ℝ) : 0 ≤ listVariance l := by
  unfold listVariance listMean
  apply div_nonneg
  · apply List.sum_nonneg
    intro x hx
    rcases List.mem_map.mp hx with ⟨y, _, rfl⟩
    positivity
  · positivity

/-- Variance after dividing every element by a constant. -/
theorem listVariance_map_div (l : List ℝ) (s : ℝ) :
    listVariance (l.map (fun x => x / s)) = listVariance l / s ^ 2 := by
  unfold listVariance
  rw [listMean_map_div, List.map_map]
  have hfun : ((fun y => (y - listMean l / s) ^ 2) ∘ (fun x => x / s))
      = fun x => (x - listMean l) ^ 2 / s ^ 2 := by
    funext x
    simp only [Function.comp]
    rw [div_sub_div_same, div_pow]
  rw [hfun]
  have hmaps : (l.map fun x => (x - listMean l) ^ 2 / s ^ 2)
      = (l.map fun x => (x - listMean l) ^ 2).map (fun y => y / s ^ 2) := by
    rw [List.map_map]
    rfl
  rw [hmaps, listMean_map_div]

/-- Variance is invariant under mean-centering. -/
theorem listVariance_centerRow (l : List ℝ) :
    listVariance (centerRow l) = listVariance l := by
  unfold listVariance
  rw [listMean_centerRow]
  unfold centerRow
  rw [List.map_map]
  simp only [sub_zero]
  rfl

/-- C9: for every data array with nonzero variance along the chosen
dimension, standardization with scaling enabled produces rows whose mean is
exactly 0 and whose standard deviation is exactly 1. -/
theorem standardize_mean_zero_std_one (data : List (List ℝ))
    (hv : ∀ row ∈ data, listVariance row ≠ 0) :
    StandardizedRows data := by
  intro row hrow
  unfold slice_tools.standardize_data at hrow
  dsimp only at hrow
  rw [if_pos rfl, List.map_map] at hrow
  rcases List.mem_map.mp hrow with ⟨r, hr, rfl⟩
  have hvr : listVariance r ≠ 0 := hv r hr
  constructor
  · show listMean (scaleRow (centerRow r)) = 0
    unfold scaleRow
    rw [listMean_map_div, listMean_centerRow, zero_div]
  · show listStd (scaleRow (centerRow r)) = 1
    have h1 : listVariance (scaleRow (centerRow r)) = 1 := by
      unfold scaleRow
      rw [listVariance_map_div]
      unfold listStd
      rw [Real.sq_sqrt (listVariance_nonneg (centerRow r)),
        listVariance_centerRow]
      exact div_self hvr
    unfold listStd
    rw [h1, Real.sqrt_one]

/-- C9 witness: the concrete data `data_c9` has nonzero row variance and
its standardization has zero-mean, unit-standard-deviation rows. -/
theorem standardize_mean_zero_std_one_witness :
    (∀ row ∈ data_c9, listVariance row ≠ 0) ∧ StandardizedRows data_c9 :=
  ⟨by
    intro row hrow
    simp only [data_c9, List.mem_singleton] at hrow
    subst hrow
    norm_num [listVariance, listMean],
  standardize_mean_zero_std_one data_c9 (by
    intro row hrow
    simp only [data_c9, List.mem_singleton] at hrow
    subst hrow
    norm_num [listVariance, listMean])⟩

/-- C5 counterexample: the era5_processing `standardize_data`, called with
`mean_center=False` (and `scale=False`), returns its input unchanged, and
the input differs from its mean-centered form, so no mean was subtracted:
the claim that mean-centering is unconditional with no option to skip it is
false for this cited version. -/
theorem era5_standardize_skips_centering_counterexample :
    era5_processing.standardize_data [[(1 : ℝ), 3]] false false = [[1, 3]] ∧
    centerRow [(1 : ℝ), 3] ≠ [1, 3] := by
  constructor
  · rfl
  · norm_num [centerRow, listMean]

/-- C5 (amended): the slice_tools `standardize_data` is unconditionally
mean-centering (every output row has mean zero, with or without scaling);
the era5_processing version coincides with it when its `mean_center` flag
is set, and with `mean_center` and `scale` both cleared it returns the data
unchanged; both divide by the standard deviation only when the scale flag
is set. -/
theorem standardize_centering_characterization :
    (∀ (data : List (List ℝ)) (scale : Bool),
        ∀ row ∈ slice_tools.standardize_data data scale, listMean row = 0) ∧
    (∀ (data : List (List ℝ)) (scale : Bool),
        era5_processing.standardize_data data true scale =
          slice_tools.standardize_data data scale) ∧
    (∀ data : List (List ℝ),
        era5_processing.standardize_data data false false = data) := by
  refine ⟨?_, ?_, ?_⟩
  · intro data scale row hrow
    cases scale with
    | false =>
        unfold slice_tools.standardize_data at hrow
        dsimp only at hrow
        rw [if_neg (by simp)] at hrow
        rcases List.mem_map.mp hrow with ⟨r, _, rfl⟩
        exact listMean_centerRow r
    | true =>
        unfold slice_tools.standardize_data at hrow
        dsimp only at hrow
        rw [if_pos rfl, List.map_map] at hrow
        rcases List.mem_map.mp hrow with ⟨r, _, rfl⟩
        show listMean (scaleRow (centerRow r)) = 0
        unfold scaleRow
        rw [listMean_map_div, listMean_centerRow, zero_div]
  · intro data scale
    rfl
  · intro data
    rfl

/-- C10: the slice_tools `standardize_data` leaves the caller's array
unchanged, while the era5_processing version leaves the caller's array
holding the standardized values (in-place augmented assignment), and on a
concrete input the caller's array after the era5_processing call really
differs from the original. -/
theorem standardize_aliasing_effects :
    (∀ (data : List (List ℝ)) (scale : Bool),
        (slice_tools_standardize_call data scale).2 = data) ∧
    (∀ (data : List (List ℝ)) (mc scale : Bool),
        (era5_standardize_call data mc scale).2 =
          era5_processing.standardize_data data mc scale) ∧
    (era5_standardize_call [[(1 : ℝ), 3]] true false).2 ≠ [[1, 3]] := by
  refine ⟨fun _ _ => rfl, fun _ _ _ => rfl, ?_⟩
  have h : (era5_standardize_call [[(1 : ℝ), 3]] true false).2 = [[-1, 1]] := by
    show era5_processing.standardize_data [[(1 : ℝ), 3]] true false = [[-1, 1]]
    unfold era5_processing.standardize_data
    norm_num [centerRow, listMean]
  rw [h]
  norm_num

/-- Lower bound for `getLastD` from a lower bound on the list and the
default. -/
theorem le_getLastD_of_lb (l : List ℤ) (d x : ℤ) (hxd : x ≤ d)
    (hall : ∀ y ∈ l, x ≤ y) : x ≤ l.getLastD d := by
  induction l generalizing d with
  | nil => simpa using hxd
  | cons b tl ih =>
      rw [List.getLastD_cons]
      exact ih b (hall b (List.mem_cons_self b tl))
        (fun y hy => hall y (List.mem_cons_of_mem b hy))

/-- In a sorted list every element is at least the head. -/
theorem sorted_headD_le (l : List ℤ)
    (hs : List.Sorted (fun a b => a ≤ b) l) :
    ∀ t ∈ l, l.headD 0 ≤ t := by
  cases l with
  | nil => intro t ht; cases ht
  | cons a tl =>
      intro t ht
      rcases List.mem_cons.mp ht with h1 | h2
      · subst h1; exact le_refl t
      · exact (List.sorted_cons.mp hs).1 t h2

/-- In a sorted list every element is at most the last element, whatever
the default. -/
theorem sorted_le_getLastD (l : List ℤ)
    (hs : List.Sorted (fun a b => a ≤ b) l) :
    ∀ t ∈ l, ∀ d, t ≤ l.getLastD d := by
  induction l with
  | nil => intro t ht; cases ht
  | cons a tl ih =>
      intro t ht d
      rw [List.getLastD_cons]
      rcases List.mem_cons.mp ht with h1 | h2
      · subst h1
        exact le_getLastD_of_lb tl t t (le_refl t) (List.sorted_cons.mp hs).1
      · exact ih (List.sorted_cons.mp hs).2 t h2 a

/-- C6 counterexample: on a dataset with a single time sample, slicing with
all bounds unspecified does not succeed: the defaulted start equals the
defaulted end, and the `start >= end` validation raises a value error.  So
"for every dataset, requesting the full bounds succeeds" is false as
stated. -/
theorem slice_single_time_counterexample :
    slice_tools.slice_era5_dataset ds_single none none none =
      Except.error "Start datetime must be before end datetime." := by
  rfl

/-- C6 (amended): for every dataset with a monotonically ordered time
coordinate whose first time sample strictly precedes its last, slicing with
start, end and levels all unspecified succeeds and returns the dataset with
its full time and level extent. -/
theorem slice_full_bounds_preserves_extent (ds : Era5Slim)
    (hsorted : List.Sorted (fun a b => a ≤ b) ds.time)
    (hlt : ds.time.headD 0 < ds.time.getLastD 0) :
    SliceFullBounds ds := by
  unfold SliceFullBounds slice_tools.slice_era5_dataset
    slice_tools.get_dataset_time_bounds
  dsimp only [Option.getD]
  rw [if_neg (by simp), if_neg (by omega), if_pos (by simp [List.all_eq_true])]
  have hfilter : ds.time.filter
      (fun t => decide (ds.time.headD 0 ≤ t ∧ t ≤ ds.time.getLastD 0)) =
      ds.time := by
    apply List.filter_eq_self.mpr
    intro a ha
    simp only [decide_eq_true_eq]
    exact ⟨sorted_headD_le ds.time hsorted a ha,
      sorted_le_getLastD ds.time hsorted a ha 0⟩
  rw [hfilter]

/-- C6 witness: the specification holds on the concrete dataset `ds_c6`. -/
theorem slice_full_bounds_preserves_extent_witness :
    List.Sorted (fun a b => a ≤ b) ds_c6.time ∧
    ds_c6.time.headD 0 < ds_c6.time.getLastD 0 ∧ SliceFullBounds ds_c6 :=
  ⟨by decide, by decide,
    slice_full_bounds_preserves_extent ds_c6 (by decide) (by decide)⟩

/-- C8: for every dataset with a nonempty time axis and requested start and
end datetimes within the dataset bounds, if the start is not strictly
before the end then `slice_era5_dataset` raises a value error with a
human-readable message and returns no dataset. -/
theorem slice_start_not_before_end_error (ds : Era5Slim) (s e : ℤ)
    (lv : Option (List ℤ)) (hne : ds.time ≠ [])
    (hs1 : ds.time.headD 0 ≤ s) (hs2 : s ≤ ds.time.getLastD 0)
    (he1 : ds.time.headD 0 ≤ e) (he2 : e ≤ ds.time.getLastD 0)
    (hse : e ≤ s) :
    slice_tools.slice_era5_dataset ds (some s) (some e) lv =
      Except.error "Start datetime must be before end datetime." := by
  unfold slice_tools.slice_era5_dataset slice_tools.get_dataset_time_bounds
  dsimp only [Option.getD]
  rw [if_neg (by omega), if_pos hse]

/-- C8 witness: slicing `ds_c8` with start 7 and end 3 (both within the
bounds 0..10) raises the start-before-end value error. -/
theorem slice_start_not_before_end_error_witness :
    ds_c8.time ≠ [] ∧ ds_c8.time.headD 0 ≤ 7 ∧ (7 : ℤ) ≤ ds_c8.time.getLastD 0 ∧
    ds_c8.time.headD 0 ≤ 3 ∧ (3 : ℤ) ≤ ds_c8.time.getLastD 0 ∧ (3 : ℤ) ≤ 7 ∧
    slice_tools.slice_era5_dataset ds_c8 (some 7) (some 3) none =
      Except.error "Start datetime must be before end datetime." :=
  ⟨by decide, by decide, by decide, by decide, by decide, by decide,
    slice_start_not_before_end_error ds_c8 7 3 none (by decide) (by decide)
      (by decide) (by decide) (by decide) (by decide)⟩

/-- C1: the metadata record persisted to disk (saved at line 291 of
`run_dmd_quick.py`) contains the run parameters but not the test-set error
metrics: `test_mse` and `test_relative_error` are only added to the
in-memory dictionary after the save, and the updated dictionary is never
persisted.  The claim (persisted record = run parameters plus test-set
error metrics) therefore fails on the code, while it would hold of the
post-update in-memory dictionary. -/
theorem metadata_persisted_before_test_metrics (p : RunParams)
    (test_mse test_relative_error : ℚ) :
    (run_dmd_quick.saved_metadata p).lookup "train_frac" =
      some (MetaVal.num p.train_frac) ∧
    (run_dmd_quick.saved_metadata p).lookup "svd_rank" =
      some (MetaVal.count p.svd_rank) ∧
    (run_dmd_quick.saved_metadata p).lookup "delay" =
      some (MetaVal.count p.delay) ∧
    (run_dmd_quick.saved_metadata p).lookup "n_modes" =
      some (MetaVal.count p.n_modes) ∧
    (run_dmd_quick.saved_metadata p).lookup "spatial_shape" =
      some (MetaVal.shape2 p.n_lat p.n_lon) ∧
    (run_dmd_quick.saved_metadata p).lookup "temporal_points" =
      some (MetaVal.count p.temporal_points) ∧
    (run_dmd_quick.saved_metadata p).lookup "train_points" =
      some (MetaVal.count p.train_points) ∧
    (run_dmd_quick.saved_metadata p).lookup "test_mse" = none ∧
    (run_dmd_quick.saved_metadata p).lookup "test_relative_error" = none ∧
    (run_dmd_quick.updated_metadata p test_mse test_relative_error).lookup
      "test_mse" = some (MetaVal.num test_mse) ∧
    (run_dmd_quick.updated_metadata p test_mse test_relative_error).lookup
      "test_relative_error" = some (MetaVal.num test_relative_error) := by
  refine ⟨?_, ?_, ?_, ?_, ?_, ?_, ?_, ?_, ?_, ?_, ?_⟩ <;>
    simp [run_dmd_quick.saved_metadata, run_dmd_quick.updated_metadata,
      run_dmd_quick.metadata_dict, List.lookup]
